import Mathlib

/-!
Verification of the psql-wrapper repository (package `internal`, files
`internal/wrapper.go` and `cmd/psqlw/main.go`, latest revision: the
`wrapper` struct version).

The Go code is shallowly embedded:
* Go strings are Lean `String`s, handled through their character list
  (`String.data`); the wrapper only ever indexes and slices ASCII option
  syntax, where Go byte indexing and character indexing agree.
* The ambient operating-system state consulted by the launcher
  (environment variables, the `os.Stat` probe for the default provider,
  the outcome of the two child processes) is a `World` record, and each
  Go function that performs side effects becomes a pure function of the
  `World`; messages written through `w.logger` are returned as a list of
  strings (the logger only adds the fixed `name ++ ": "` prefix).
* `url.Parse` from the Go standard library (not part of this repository)
  is modelled by `urlParse` below, covering the behaviour relevant to
  username extraction and its error cases.
-/

namespace PsqlWrapper

/-- Go `strings.HasPrefix s pre` (from the uses in `isShortOption` /
`isLongOption` / `searchConnectionArgForUsername`). -/
def strHasPre (s pre : String) : Bool :=
  pre.data.isPrefixOf s.data

/-- Source `internal/wrapper.go`: `func isShortOption(arg string) bool`. -/
def isShortOption (arg : String) : Bool :=
  strHasPre arg "-"

/-- Source `internal/wrapper.go`: `func isLongOption(arg string) bool`. -/
def isLongOption (arg : String) : Bool :=
  strHasPre arg "--"

/-- Source `internal/wrapper.go`: the map `shortOptionsHavingArg` (lookup of a
missing key in a Go `map[byte]bool` yields `false`). -/
def shortOptionsHavingArg (c : Char) : Bool :=
  ['c', 'd', 'f', 'V', '?', 'F', 'R', 'T', 'h', 'p', 'U'].contains c

/-- Source `internal/wrapper.go`: the map `longOptionsHavingArg`. -/
def longOptionsHavingArg (name : String) : Bool :=
  ["command", "dbname", "file", "set", "variable", "help", "log-file",
   "output", "field-separator", "pset", "record-separator", "table-attr",
   "host", "port", "username"].contains name

/-- Split a character list at the first occurrence of `t`: the part
before it, and — when `t` occurs — the part after it. -/
def cutAtFirst (t : Char) : List Char → List Char × Option (List Char)
  | [] => ([], none)
  | c :: cs =>
    if c = t then ([], some cs)
    else
      let r := cutAtFirst t cs
      (c :: r.1, r.2)

/-- Go `strings.SplitN s "=" 2` as used in the wrapper: the text before
the first `=`, and the remainder when an `=` is present (`SplitN`
returns a one-element slice exactly when there is no separator). -/
def splitN2 (s : String) : String × Option String :=
  match cutAtFirst '=' s.data with
  | (a, none) => (String.mk a, none)
  | (a, some b) => (String.mk a, some (String.mk b))

/-- Split at the last occurrence of `t` (Go `strings.LastIndex`):
`some (before, after)` when `t` occurs. -/
def cutAtLast (t : Char) (l : List Char) : Option (List Char × List Char) :=
  match cutAtFirst t l.reverse with
  | (_, none) => none
  | (a, some b) => some (b.reverse, a.reverse)

/-- How the loop body of `searchArgsForUsername` treats one token:
a positional argument, a skipped degenerate option (`--` or `-`), or an
option token, recording whether it is the username option (`--username`
or `-U`), its inline value when one is attached to the token itself, and
whether it consumes the following token as its value. -/
inductive Tok where
  | positional
  | skip
  | opt (isUser : Bool) (inline : Option String) (consumes : Bool)
  deriving DecidableEq, Repr

/-- The token classification performed by the loop body of
`searchArgsForUsername` (`internal/wrapper.go` lines 361–412): the
long-option branch, the short-option branch, and the positional branch,
with the same tests in the same order. -/
def classifyArg (arg : String) : Tok :=
  if isLongOption arg then
    if arg.data.length ≤ 2 then Tok.skip
    else
      match splitN2 (String.mk (arg.data.drop 2)) with
      | (longName, some v) => Tok.opt (longName == "username") (some v) false
      | (longName, none) =>
          Tok.opt (longName == "username") none (longOptionsHavingArg longName)
  else if isShortOption arg then
    if arg.data.length ≤ 1 then Tok.skip
    else
      let shortName := arg.data.getD 1 ' '
      if 2 < arg.data.length then
        Tok.opt (shortName == 'U') (some (String.mk (arg.data.drop 2))) false
      else
        Tok.opt (shortName == 'U') none (shortOptionsHavingArg shortName)
  else Tok.positional

/-- The `for` loop of `searchArgsForUsername`: scans the argument vector
left to right carrying the current `username` candidate and the
collected positional arguments.  An option that takes a value and has no
inline value consumes the next token (`i++` in Go); when the vector ends
right after such an option its value stays `""`, and a username option
always assigns its value to the candidate, even when that value is
empty. -/
def scanArgsLoop : List String → String → List String → String × List String
  | [], username, positional => (username, positional)
  | arg :: rest, username, positional =>
    match classifyArg arg with
    | Tok.positional => scanArgsLoop rest username (positional ++ [arg])
    | Tok.skip => scanArgsLoop rest username positional
    | Tok.opt isUser (some v) _ =>
        scanArgsLoop rest (if isUser then v else username) positional
    | Tok.opt isUser none true =>
        match rest with
        | [] => ((if isUser then "" else username), positional)
        | v :: rest2 =>
            scanArgsLoop rest2 (if isUser then v else username) positional
    | Tok.opt isUser none false =>
        scanArgsLoop rest (if isUser then "" else username) positional

/-- Whether a token is an option that consumes the following token as
its value. -/
def consumesNext (arg : String) : Bool :=
  match classifyArg arg with
  | Tok.opt _ none true => true
  | _ => false

/-- Predicate for the scan: `scanStops xs = true` when scanning `xs` never reaches past the end
of `xs`, i.e. `xs` does not end in a value-taking option whose value
token is missing. -/
def scanStops : List String → Bool
  | [] => true
  | arg :: rest =>
    if consumesNext arg then
      match rest with
      | [] => false
      | _ :: rest2 => scanStops rest2
    else scanStops rest

/-- Characters matched by the Go regular-expression class `\s`
(`[\t\n\f\r ]`). -/
def isRegexpSpace (c : Char) : Bool :=
  c = ' ' || c = '\t' || c = '\n' || c = '\x0c' || c = '\r'

/-- Helper for `splitWS`: `inRun` records that the previous character
belonged to a separator run already split on. -/
def splitWSAux : List Char → List Char → Bool → List String
  | [], acc, _ => [String.mk acc.reverse]
  | c :: cs, acc, inRun =>
    if isRegexpSpace c then
      if inRun then splitWSAux cs [] true
      else String.mk acc.reverse :: splitWSAux cs [] true
    else splitWSAux cs (c :: acc) false

/-- Go `regexp.MustCompile("\\s+").Split(s, -1)`: split on maximal runs
of whitespace, keeping empty pieces at the borders. -/
def splitWS (s : String) : List String :=
  splitWSAux s.data [] false

/-- ASCII subset of `unicode.IsSpace`, used by Go `strings.TrimSpace`
(the wrapper only ever trims values produced by `splitWS`, which
contain no whitespace at all). -/
def isUnicodeSpace (c : Char) : Bool :=
  c = ' ' || c = '\t' || c = '\n' || c = '\x0b' || c = '\x0c' || c = '\r'

/-- Go `strings.TrimSpace`. -/
def trimSpace (s : String) : String :=
  String.mk (((s.data.dropWhile isUnicodeSpace).reverse.dropWhile
    isUnicodeSpace).reverse)

/-- Go `strings.TrimRight(s, "\n")` as used by
`invokePasswordProvider`: removes trailing newline characters only. -/
def trimRightNewlines (s : String) : String :=
  String.mk ((s.data.reverse.dropWhile (fun c => c == '\n')).reverse)

/-! ### Model of the Go standard library `net/url.Parse`

`searchConnectionURIForUsername` calls `url.Parse` and reads
`u.User.Username()`.  The model below follows the control flow of
`net/url`: rejection of control characters, fragment and query
splitting, scheme extraction, the opaque (rootless) form, the authority
with userinfo validation and percent-decoding, and port validation.
Host percent-decoding and the exact wording of Go error messages are
simplified; percent-decoded bytes are mapped to single characters. -/

/-- ASCII control characters rejected by `url.Parse`. -/
def isCtl (c : Char) : Bool :=
  c.toNat < 32 || c.toNat == 127

def isAlphaChar (c : Char) : Bool :=
  ('a' ≤ c && c ≤ 'z') || ('A' ≤ c && c ≤ 'Z')

def isDigitChar (c : Char) : Bool :=
  '0' ≤ c && c ≤ '9'

def isHexChar (c : Char) : Bool :=
  isDigitChar c || ('a' ≤ c && c ≤ 'f') || ('A' ≤ c && c ≤ 'F')

def hexVal (c : Char) : Nat :=
  if isDigitChar c then c.toNat - 48
  else if 'a' ≤ c && c ≤ 'f' then c.toNat - 87
  else c.toNat - 55

/-- Percent-escape wellformedness: every `%` is followed by two hex
digits (`url.EscapeError` otherwise). -/
def unescapeOk : List Char → Bool
  | [] => true
  | c :: cs =>
    if c = '%' then
      match cs with
      | a :: b :: rest => isHexChar a && isHexChar b && unescapeOk rest
      | _ => false
    else unescapeOk cs

/-- Percent-decoding, assuming `unescapeOk`. -/
def unescapeChars : List Char → List Char
  | [] => []
  | c :: cs =>
    if c = '%' then
      match cs with
      | a :: b :: rest => Char.ofNat (hexVal a * 16 + hexVal b) :: unescapeChars rest
      | _ => []  -- unreachable under `unescapeOk`
    else c :: unescapeChars cs

/-- Model of `net/url` `getScheme`: the scheme name (empty when absent) and the
remainder after the colon. -/
def getScheme (orig : List Char) : List Char → List Char →
    Except String (List Char × List Char)
  | [], _ => Except.ok ([], orig)
  | c :: cs, acc =>
    if isAlphaChar c then getScheme orig cs (c :: acc)
    else if isDigitChar c || c = '+' || c = '-' || c = '.' then
      if acc = [] then Except.ok ([], orig) else getScheme orig cs (c :: acc)
    else if c = ':' then
      if acc = [] then Except.error "missing protocol scheme"
      else Except.ok (acc.reverse, cs)
    else Except.ok ([], orig)

/-- Model of `net/url` `validUserinfo`. -/
def validUserinfoChar (c : Char) : Bool :=
  isAlphaChar c || isDigitChar c ||
    ['-', '.', '_', ':', '~', '!', '$', '&', Char.ofNat 39, '(', ')', '*',
     '+', ',', ';', '=', '%', '@'].contains c

/-- Model of `net/url` `parseHost`, reduced to its success/failure verdict: the
bracketed form needs a closing bracket, and anything after the last
colon must be a (possibly empty) run of digits. -/
def parseHost (host : List Char) : Except String Unit :=
  match host with
  | '[' :: _ =>
    match cutAtLast ']' host with
    | none => Except.error "missing ']' in host"
    | some (_, after) =>
      match after with
      | [] => Except.ok ()
      | ':' :: ds =>
          if ds.all isDigitChar then Except.ok ()
          else Except.error ("invalid port \":" ++ String.mk ds ++ "\" after host")
      | _ => Except.error ("invalid port \"" ++ String.mk after ++ "\" after host")
  | _ =>
    match cutAtLast ':' host with
    | none => Except.ok ()
    | some (_, ds) =>
        if ds.all isDigitChar then Except.ok ()
        else Except.error ("invalid port \":" ++ String.mk ds ++ "\" after host")

/-- Model of `net/url` `parseAuthority`, reduced to the decoded username (empty
when there is no userinfo) or a parse error. -/
def parseAuthority (authority : List Char) : Except String (List Char) :=
  match cutAtLast '@' authority with
  | none =>
    match parseHost authority with
    | Except.error e => Except.error e
    | Except.ok _ => Except.ok []
  | some (userinfo, hostpart) =>
    match parseHost hostpart with
    | Except.error e => Except.error e
    | Except.ok _ =>
      if userinfo.all validUserinfoChar = false then
        Except.error "net/url: invalid userinfo"
      else
        match cutAtFirst ':' userinfo with
        | (uname, none) =>
          if unescapeOk uname then Except.ok (unescapeChars uname)
          else Except.error "invalid URL escape"
        | (uname, some pass) =>
          if unescapeOk uname = false then Except.error "invalid URL escape"
          else if unescapeOk pass = false then Except.error "invalid URL escape"
          else Except.ok (unescapeChars uname)

/-- The body of `net/url` `parse` after the fragment has been removed:
scheme, query split, opaque form, authority, and path escapes. -/
def urlParseNoFrag (l : List Char) : Except String String :=
  match getScheme l l [] with
  | Except.error e => Except.error e
  | Except.ok (scheme, afterScheme) =>
    let rest := (cutAtFirst '?' afterScheme).1
    if scheme ≠ [] ∧ ¬ ['/'].isPrefixOf rest then
      -- rootless opaque form: `url.Opaque` is set verbatim, no userinfo
      Except.ok ""
    else if ['/', '/'].isPrefixOf rest ∧
        (scheme ≠ [] ∨ ¬ ['/', '/', '/'].isPrefixOf rest) then
      let cuta := cutAtFirst '/' (rest.drop 2)
      match parseAuthority cuta.1 with
      | Except.error e => Except.error e
      | Except.ok uname =>
        match cuta.2 with
        | none => Except.ok (String.mk uname)
        | some p =>
          if unescapeOk p then Except.ok (String.mk uname)
          else Except.error "invalid URL escape"
    else
      if scheme = [] ∧ (cutAtFirst '/' rest).1.contains ':' then
        Except.error "first path segment in URL cannot contain colon"
      else if unescapeOk rest then Except.ok ""
      else Except.error "invalid URL escape"

/-- Model of Go `url.Parse` followed by `u.User.Username()`: either a
parse error or the username component (empty when the URL carries no
userinfo). -/
def urlParse (s : String) : Except String String :=
  if s.data.any isCtl then
    Except.error "net/url: invalid control character in URL"
  else
    let cutf := cutAtFirst '#' s.data
    match cutf.2 with
    | some frag =>
      if unescapeOk frag = false then Except.error "invalid URL escape"
      else urlParseNoFrag cutf.1
    | none => urlParseNoFrag cutf.1

/-! ### The Username Resolver (`internal/wrapper.go` lines 317–463)

Every function carries its log output (the lines written through
`w.logger`, without the fixed name prefix) in its result. -/

/-- Function `searchConnectionURIForUsername`: parse errors are logged and yield
no username; otherwise the result is `u.User.Username()`. -/
def searchConnectionURIForUsername (uri : String) : String × List String :=
  match urlParse uri with
  | Except.error e => ("", [e])
  | Except.ok uname => (uname, [])

/-- Inner loop of `searchConnectionStringForUsername`: the `for` loop over the
whitespace-split parameters, returning the value of the first `user`
key. -/
def findUserParamLoop : List String → String
  | [] => ""
  | param :: rest =>
    match splitN2 param with
    | (k, some v) => if k == "user" then trimSpace v else findUserParamLoop rest
    | (_, none) => findUserParamLoop rest

/-- Function `searchConnectionStringForUsername`. -/
def searchConnectionStringForUsername (s : String) : String :=
  findUserParamLoop (splitWS s)

/-- Function `searchConnectionArgForUsername`. -/
def searchConnectionArgForUsername (arg : String) : String × List String :=
  if strHasPre arg "postgresql:" then searchConnectionURIForUsername arg
  else (searchConnectionStringForUsername arg, [])

/-- Log line of `searchPositionalArgsForUsername` for more than two
positional arguments. -/
def tooManyMsg (n : Nat) : String :=
  s!"Too many positional arguments: {n}"

/-- Function `searchPositionalArgsForUsername`: the `switch` on the number of
collected positional arguments. -/
def searchPositionalArgsForUsername (args : List String) : String × List String :=
  match args with
  | [] => ("", [])
  | [a] => searchConnectionArgForUsername a
  | [_, b] => (b, [])
  | _ => ("", [tooManyMsg args.length])

/-- Function `searchArgsForUsername`: run the scan loop, then let a non-empty
positional-derived username override the option-derived candidate. -/
def searchArgsForUsername (args : List String) : String × List String :=
  let s := scanArgsLoop args "" []
  let r := searchPositionalArgsForUsername s.2
  ((if r.1 ≠ "" then r.1 else s.1), r.2)

/-- Function `searchForUsername`: fall back to `os.Getenv("PGUSER")` (passed in
as `pguser`) when the arguments yield nothing. -/
def searchForUsername (args : List String) (pguser : String) : String × List String :=
  let r := searchArgsForUsername args
  ((if r.1 = "" then pguser else r.1), r.2)

/-! ### The Launcher (`internal/wrapper.go` lines 253–315 and 465–497,
`cmd/psqlw/main.go` lines 23–28) -/

/-- Outcome of `exec.Command(provider, username).Output()`. -/
inductive ProviderOutcome where
  | ok (stdout : String)
  | exitError
  | startError
  deriving DecidableEq

/-- Outcome of `cmd.Run()` for the target command: a started child that
exited with the given status (Go reports a signal death as status -1),
or a failure to start at all. -/
inductive ChildOutcome where
  | exited (code : Int)
  | startError (msg : String)
  deriving DecidableEq

/-- The ambient operating-system state read by one invocation of the
wrapper: `environ` is `os.Environ()`, `pguser` is
`os.Getenv("PGUSER")`, `providerOverride` is
`os.Getenv("PGW_PASSWORD_PROVIDER")`, `defaultProviderExists` is the
`os.Stat` probe for `defaultProviderPath`, which itself stands for
`filepath.Join(filepath.Dir(w.path), "password_provider")`;
`runProvider` gives the outcome of invoking a provider executable on a
username, and `child` the outcome of spawning the target command. -/
structure World where
  environ : List String
  pguser : String
  providerOverride : String
  defaultProviderExists : Bool
  defaultProviderPath : String
  runProvider : String → String → ProviderOutcome
  child : ChildOutcome

/-- Function `getPasswordProvider`: the override variable, else the default
executable next to the wrapper when it exists, else nothing. -/
def getPasswordProvider (w : World) : String :=
  if w.providerOverride = "" then
    (if w.defaultProviderExists then w.defaultProviderPath else "")
  else w.providerOverride

/-- Function `invokePasswordProvider`: capture standard output and strip
trailing newlines, or surface an invocation error. -/
def invokePasswordProvider (w : World) (provider username : String) :
    Except String String :=
  match w.runProvider provider username with
  | ProviderOutcome.ok stdout => Except.ok (trimRightNewlines stdout)
  | ProviderOutcome.exitError =>
      Except.error ("password provider \"" ++ provider ++ "\" exited with an error")
  | ProviderOutcome.startError =>
      Except.error "failed to invoke the password provider"

/-- Function `retrievePasswordForUser`. -/
def retrievePasswordForUser (w : World) (username : String) :
    Except String String :=
  let provider := getPasswordProvider w
  if provider = "" then
    Except.error "environment variable PGW_PASSWORD_PROVIDER is undefined"
  else invokePasswordProvider w provider username

/-- Result of `buildEnv`: the environment for the child, the Go error
value, the log lines, and whether the password provider subprocess was
invoked. -/
structure BuildResult where
  env : List String
  err : Option String
  logs : List String
  providerInvoked : Bool
  deriving DecidableEq

/-- Function `buildEnv`: copy `os.Environ()`, resolve the username, and when one
is found retrieve a password and append `PGPASSWORD=` to the copy when
the password is non-empty. -/
def buildEnv (w : World) (args : List String) : BuildResult :=
  let env := w.environ
  let r := searchForUsername args w.pguser
  if r.1 = "" then
    { env := env, err := none,
      logs := r.2 ++ ["Cannot detect username to login"],
      providerInvoked := false }
  else
    match retrievePasswordForUser w r.1 with
    | Except.error e =>
      { env := env, err := some e, logs := r.2,
        providerInvoked := getPasswordProvider w ≠ "" }
    | Except.ok password =>
      if password = "" then
        { env := env, err := none, logs := r.2, providerInvoked := true }
      else
        { env := env ++ ["PGPASSWORD=" ++ password], err := none, logs := r.2,
          providerInvoked := true }

/-- Function `runCommand`: exit status of the child when it ran (Go returns the
status both for a nil error and for an `exec.ExitError`), or the pair
`(1, err)` when it could not be started. -/
def runCommand (w : World) : Int × Option String :=
  match w.child with
  | ChildOutcome.exited code => (code, none)
  | ChildOutcome.startError msg => (1, some msg)

/-- Result of `launch`: the exit code, the log lines, whether the
target command was spawned, and whether the provider was invoked. -/
structure LaunchResult where
  exitCode : Int
  logs : List String
  spawned : Bool
  providerInvoked : Bool
  deriving DecidableEq

/-- Function `launch`: a `buildEnv` error is logged and turns into exit code 1
without spawning the target; otherwise the target runs and a start
error is logged while its code is passed through. -/
def launch (w : World) (args : List String) : LaunchResult :=
  let b := buildEnv w args
  match b.err with
  | some e =>
    { exitCode := 1, logs := b.logs ++ [e], spawned := false,
      providerInvoked := b.providerInvoked }
  | none =>
    let rc := runCommand w
    match rc.2 with
    | some e =>
      { exitCode := rc.1, logs := b.logs ++ [e], spawned := true,
        providerInvoked := b.providerInvoked }
    | none =>
      { exitCode := rc.1, logs := b.logs, spawned := true,
        providerInvoked := b.providerInvoked }

/-- Function `Launch` (`internal/wrapper.go` lines 253–262): `args[0]` is the
wrapper invocation path (folded into `w.defaultProviderPath`), the rest
are the arguments handed to `launch`. -/
def LaunchTop (w : World) (argv : List String) : LaunchResult :=
  launch w (argv.drop 1)

/-- Function `main` (`cmd/psqlw/main.go`): the wrapper process exits with the
launcher result (an explicit `os.Exit` for a non-zero code, a normal
return — exit status 0 — otherwise). -/
def mainExit (w : World) (argv : List String) : Int :=
  let exitCode := (LaunchTop w argv).exitCode
  if exitCode ≠ 0 then exitCode else 0

/-! ## Theorems -/

/-- Unfolding of `scanStops` on a cons cell with the tail left
abstract. -/
theorem scanStops_cons (arg : String) (rest : List String) :
    scanStops (arg :: rest) =
      if consumesNext arg then
        (match rest with
         | [] => false
         | _ :: rest2 => scanStops rest2)
      else scanStops rest := by
  cases rest <;> rfl

/-- Unfolding of `scanArgsLoop` on a cons cell with the tail left
abstract. -/
theorem scanArgsLoop_cons (arg : String) (rest : List String) (u : String)
    (p : List String) :
    scanArgsLoop (arg :: rest) u p =
      match classifyArg arg with
      | Tok.positional => scanArgsLoop rest u (p ++ [arg])
      | Tok.skip => scanArgsLoop rest u p
      | Tok.opt isUser (some v) _ => scanArgsLoop rest (if isUser then v else u) p
      | Tok.opt isUser none true =>
          (match rest with
           | [] => ((if isUser then "" else u), p)
           | v :: rest2 => scanArgsLoop rest2 (if isUser then v else u) p)
      | Tok.opt isUser none false =>
          scanArgsLoop rest (if isUser then "" else u) p := by
  rcases hc : classifyArg arg with _ | _ | ⟨iu, _ | iv, _ | _⟩ <;> cases rest <;>
    simp [scanArgsLoop, hc]

/-- The scan of `xs ++ ys` runs `xs` to completion and continues with
`ys` from the resulting state, provided no option at the end of `xs`
consumes its value from `ys`. -/
theorem scanArgsLoop_append_aux (n : Nat) :
    ∀ xs : List String, xs.length ≤ n → scanStops xs = true →
    ∀ (ys : List String) (u : String) (p : List String),
    scanArgsLoop (xs ++ ys) u p =
      scanArgsLoop ys (scanArgsLoop xs u p).1 (scanArgsLoop xs u p).2 := by
  induction n with
  | zero =>
    intro xs hl _ ys u p
    have hx : xs = [] := List.eq_nil_of_length_eq_zero (Nat.le_zero.mp hl)
    subst hx
    simp [scanArgsLoop]
  | succ n ih =>
    intro xs hl hs ys u p
    rcases xs with _ | ⟨arg, rest⟩
    · simp [scanArgsLoop]
    · have hl' : rest.length ≤ n := by
        simp [List.length_cons] at hl
        omega
      rw [List.cons_append, scanArgsLoop_cons, scanArgsLoop_cons arg rest]
      rcases hc : classifyArg arg with _ | _ | ⟨iu, _ | iv, _ | _⟩ <;>
        simp only [hc]
      · have hcn : consumesNext arg = false := by simp [consumesNext, hc]
        have hs2 : scanStops rest = true := by
          rw [scanStops_cons, hcn] at hs
          simpa using hs
        exact ih rest hl' hs2 ys u (p ++ [arg])
      · have hcn : consumesNext arg = false := by simp [consumesNext, hc]
        have hs2 : scanStops rest = true := by
          rw [scanStops_cons, hcn] at hs
          simpa using hs
        exact ih rest hl' hs2 ys u p
      · have hcn : consumesNext arg = false := by simp [consumesNext, hc]
        have hs2 : scanStops rest = true := by
          rw [scanStops_cons, hcn] at hs
          simpa using hs
        exact ih rest hl' hs2 ys (if iu then "" else u) p
      · have hcn : consumesNext arg = true := by simp [consumesNext, hc]
        rcases rest with _ | ⟨v, rest2⟩
        · rw [scanStops_cons, hcn] at hs
          simp at hs
        · have hs2 : scanStops rest2 = true := by
            rw [scanStops_cons, hcn] at hs
            simpa using hs
          have hl2 : rest2.length ≤ n := by
            simp [List.length_cons] at hl'
            omega
          rw [List.cons_append]
          exact ih rest2 hl2 hs2 ys (if iu then v else u) p
      · have hcn : consumesNext arg = false := by simp [consumesNext, hc]
        have hs2 : scanStops rest = true := by
          rw [scanStops_cons, hcn] at hs
          simpa using hs
        exact ih rest hl' hs2 ys (if iu then iv else u) p
      · have hcn : consumesNext arg = false := by simp [consumesNext, hc]
        have hs2 : scanStops rest = true := by
          rw [scanStops_cons, hcn] at hs
          simpa using hs
        exact ih rest hl' hs2 ys (if iu then iv else u) p

/-- A token of the form `--username=NAME` is classified as the username
long option with inline value `NAME`, for every `NAME` (including the
empty one). -/
theorem classifyArg_username_inline (name : String) :
    classifyArg ("--username=" ++ name) = Tok.opt true (some name) false := by
  simp [classifyArg, isLongOption, strHasPre, String.data_append,
    List.isPrefixOf, splitN2, cutAtFirst]

/-- Scanning the single token `--username=NAME` sets the candidate to
`NAME`, whatever the previous candidate was. -/
theorem scanArgsLoop_username_inline (name u : String) (p : List String) :
    scanArgsLoop ["--username=" ++ name] u p = (name, p) := by
  rw [scanArgsLoop_cons, classifyArg_username_inline]
  simp [scanArgsLoop]

/-- Scanning `--username NAME` consumes `NAME` as the option value and
sets the candidate to it. -/
theorem scanArgsLoop_username_sep (name u : String) (p : List String) :
    scanArgsLoop ["--username", name] u p = (name, p) := by
  have hc : classifyArg "--username" = Tok.opt true none true := by decide
  rw [scanArgsLoop_cons, hc]
  simp [scanArgsLoop]

/-- C1 counterexample: in `-U alice --username=` the trailing
`--username=` carries an empty value, yet it replaces the earlier
non-empty candidate `alice` — with an empty `PGUSER` the resolver
returns the empty string, not `alice`. -/
theorem claim1_counterexample :
    (searchForUsername ["-U", "alice", "--username="] "").1 = "" ∧
    (searchForUsername ["-U", "alice", "--username="] "").1 ≠ "alice" := by
  decide

/-- C1 amended: the positional stage overrides the option-scan
candidate only when it yields a non-empty value, and the environment
fallback applies only when the whole argument scan yields an empty
result; but inside the option scan a later username option token
overwrites the candidate unconditionally, even when its value is empty
or missing (`--username=`, or a trailing `-U`). -/
theorem claim1_amended :
    (∀ (args : List String) (pguser : String),
      (searchArgsForUsername args).1 ≠ "" →
      (searchForUsername args pguser).1 = (searchArgsForUsername args).1) ∧
    (∀ args : List String,
      (searchPositionalArgsForUsername (scanArgsLoop args "" []).2).1 = "" →
      (searchArgsForUsername args).1 = (scanArgsLoop args "" []).1) ∧
    (∀ (u : String) (p : List String), u ≠ "" →
      (scanArgsLoop ["--username="] u p).1 = "" ∧
      (scanArgsLoop ["-U"] u p).1 = "") := by
  refine ⟨?_, ?_, ?_⟩
  · intro args pguser h
    simp [searchForUsername, h]
  · intro args h
    simp [searchArgsForUsername, h]
  · intro u p _
    constructor <;> rfl

/-- C1 witness: a non-empty scan result survives the fallback, and the
candidate `bob` is wiped by a later `--username=`. -/
theorem claim1_witness :
    (searchArgsForUsername ["-U", "bob"]).1 ≠ "" ∧
    (searchForUsername ["-U", "bob"] "env").1 =
      (searchArgsForUsername ["-U", "bob"]).1 ∧
    (scanArgsLoop ["--username="] "bob" []).1 = "" :=
  ⟨by decide, claim1_amended.1 ["-U", "bob"] "env" (by decide),
   (claim1_amended.2.2 "bob" [] (by decide)).1⟩

/-- C2 counterexample: the vector `--username=alice -U bob` contains
the long option with explicit value `alice`, but the resolver returns
`bob` — later tokens do override it. -/
theorem claim2_counterexample :
    "--username=alice" ∈ ["--username=alice", "-U", "bob"] ∧
    (searchForUsername ["--username=alice", "-U", "bob"] "").1 = "bob" ∧
    (searchForUsername ["--username=alice", "-U", "bob"] "").1 ≠ "alice" := by
  refine ⟨by decide, by decide, by decide⟩

/-- C2 amended: when the username long option with an explicit non-empty
value (inline or as the following token) is the last token of the
vector, the preceding tokens do not end in a value-taking option that
would swallow it, and the positional arguments collected from the
preceding tokens yield no username, the resolver returns that value. -/
theorem claim2_amended (xs : List String) (name pguser : String)
    (hstop : scanStops xs = true)
    (hpos : (searchPositionalArgsForUsername (scanArgsLoop xs "" []).2).1 = "")
    (hname : name ≠ "") :
    (searchForUsername (xs ++ ["--username=" ++ name]) pguser).1 = name ∧
    (searchForUsername (xs ++ ["--username", name]) pguser).1 = name := by
  have h1 := scanArgsLoop_append_aux xs.length xs (le_refl _) hstop
  constructor
  · have hscan : scanArgsLoop (xs ++ ["--username=" ++ name]) "" [] =
        (name, (scanArgsLoop xs "" []).2) := by
      rw [h1]
      exact scanArgsLoop_username_inline name _ _
    simp [searchForUsername, searchArgsForUsername, hscan, hpos, hname]
  · have hscan : scanArgsLoop (xs ++ ["--username", name]) "" [] =
        (name, (scanArgsLoop xs "" []).2) := by
      rw [h1]
      exact scanArgsLoop_username_sep name _ _
    simp [searchForUsername, searchArgsForUsername, hscan, hpos, hname]

/-- C2 witness: `-h db --username=alice` and `-h db --username alice`
both resolve to `alice`. -/
theorem claim2_witness :
    scanStops ["-h", "db"] = true ∧
    (searchForUsername ["-h", "db", "--username=alice"] "").1 = "alice" ∧
    (searchForUsername ["-h", "db", "--username", "alice"] "").1 = "alice" :=
  ⟨rfl,
   (claim2_amended ["-h", "db"] "alice" "" rfl (by decide) (by decide)).1,
   (claim2_amended ["-h", "db"] "alice" "" rfl (by decide) (by decide)).2⟩

/-- C3: after the option scan collects the positional tokens, exactly
two positional arguments make the second one the positional-derived
username; more than two produce a non-fatal warning and no username;
zero produce no username. -/
theorem claim3_positional_classification :
    (∀ a b : String, searchPositionalArgsForUsername [a, b] = (b, [])) ∧
    searchPositionalArgsForUsername [] = ("", []) ∧
    (∀ l : List String, 2 < l.length →
      searchPositionalArgsForUsername l = ("", [tooManyMsg l.length])) := by
  refine ⟨fun a b => rfl, rfl, ?_⟩
  intro l hl
  rcases l with _ | ⟨a, _ | ⟨b, _ | ⟨c, rest⟩⟩⟩
  · simp at hl
  · simp at hl
  · simp at hl
  · rfl

/-- C3 witness: three positional arguments yield no username and the
warning line. -/
theorem claim3_witness :
    searchPositionalArgsForUsername ["x", "y", "z"] = ("", [tooManyMsg 3]) :=
  claim3_positional_classification.2.2 ["x", "y", "z"] (by decide)

/-- C5: a resolved username with no provider configured (empty override
variable, no default provider executable) makes `launch` return 1, log
the configuration error, and never spawn the target. -/
theorem claim5_no_provider_configured (w : World) (args : List String)
    (hu : (searchForUsername args w.pguser).1 ≠ "")
    (ho : w.providerOverride = "") (he : w.defaultProviderExists = false) :
    (launch w args).exitCode = 1 ∧ (launch w args).spawned = false ∧
      "environment variable PGW_PASSWORD_PROVIDER is undefined" ∈
        (launch w args).logs := by
  have hgp : getPasswordProvider w = "" := by
    simp [getPasswordProvider, ho, he]
  have hr : retrievePasswordForUser w (searchForUsername args w.pguser).1 =
      Except.error "environment variable PGW_PASSWORD_PROVIDER is undefined" := by
    simp [retrievePasswordForUser, hgp]
  have hb : buildEnv w args =
      { env := w.environ,
        err := some "environment variable PGW_PASSWORD_PROVIDER is undefined",
        logs := (searchForUsername args w.pguser).2,
        providerInvoked := false } := by
    simp [buildEnv, hu, hr, hgp]
  simp [launch, hb, List.mem_append]

/-- C5 witness: `-U alice` with no provider override and no default
provider. -/
theorem claim5_witness :
    (launch
      { environ := ["HOME=/root"], pguser := "", providerOverride := "",
        defaultProviderExists := false, defaultProviderPath := "",
        runProvider := fun _ _ => ProviderOutcome.exitError,
        child := ChildOutcome.exited 0 }
      ["-U", "alice"]).exitCode = 1 ∧
    (launch
      { environ := ["HOME=/root"], pguser := "", providerOverride := "",
        defaultProviderExists := false, defaultProviderPath := "",
        runProvider := fun _ _ => ProviderOutcome.exitError,
        child := ChildOutcome.exited 0 }
      ["-U", "alice"]).spawned = false :=
  ⟨(claim5_no_provider_configured _ ["-U", "alice"] (by decide) rfl rfl).1,
   (claim5_no_provider_configured _ ["-U", "alice"] (by decide) rfl rfl).2.1⟩

/-- C6: when the environment was built without error, a child that runs
and exits with status N makes both the launcher result and the wrapper
process exit code equal N, and a child that cannot be started yields
result 1 with the error logged. -/
theorem claim6_exit_propagation (w : World) (args : List String) (p : String)
    (hb : (buildEnv w args).err = none) :
    (∀ n : Int, w.child = ChildOutcome.exited n →
      (launch w args).exitCode = n ∧ mainExit w (p :: args) = n) ∧
    (∀ m : String, w.child = ChildOutcome.startError m →
      (launch w args).exitCode = 1 ∧ m ∈ (launch w args).logs) := by
  constructor
  · intro n hc
    have hl : (launch w args).exitCode = n := by
      simp [launch, hb, runCommand, hc]
    refine ⟨hl, ?_⟩
    rcases eq_or_ne n 0 with h | h <;>
      simp [mainExit, LaunchTop, hl, h]
  · intro m hc
    constructor
    · simp [launch, hb, runCommand, hc]
    · simp [launch, hb, runCommand, hc, List.mem_append]

/-- C6 witness: a world whose child exits with status 7 propagates 7 as
launcher result and process exit code. -/
theorem claim6_witness :
    (launch
      { environ := [], pguser := "", providerOverride := "",
        defaultProviderExists := false, defaultProviderPath := "",
        runProvider := fun _ _ => ProviderOutcome.exitError,
        child := ChildOutcome.exited 7 }
      []).exitCode = 7 ∧
    mainExit
      { environ := [], pguser := "", providerOverride := "",
        defaultProviderExists := false, defaultProviderPath := "",
        runProvider := fun _ _ => ProviderOutcome.exitError,
        child := ChildOutcome.exited 7 }
      ["psqlw"] = 7 :=
  (claim6_exit_propagation _ [] "psqlw" (by decide)).1 7 rfl

/-- C7: when the arguments yield no username and the fallback variable
is empty, the resolver returns no username, the warning is logged, the
provider is never invoked, and the target is still launched. -/
theorem claim7_no_username_fallback (w : World) (args : List String)
    (ha : (searchArgsForUsername args).1 = "") (hp : w.pguser = "") :
    (searchForUsername args w.pguser).1 = "" ∧
    (launch w args).providerInvoked = false ∧
    (launch w args).spawned = true ∧
    "Cannot detect username to login" ∈ (launch w args).logs := by
  have hu : (searchForUsername args w.pguser).1 = "" := by
    simp [searchForUsername, ha, hp]
  have hb : buildEnv w args =
      { env := w.environ,
        err := none,
        logs := (searchForUsername args w.pguser).2 ++
          ["Cannot detect username to login"],
        providerInvoked := false } := by
    simp [buildEnv, hu]
  refine ⟨hu, ?_, ?_, ?_⟩ <;>
    rcases hc : w.child with n | m <;>
      simp [launch, hb, runCommand, hc, List.mem_append]

/-- C7 witness: an empty argument vector with `PGUSER` empty. -/
theorem claim7_witness :
    (launch
      { environ := [], pguser := "", providerOverride := "x",
        defaultProviderExists := false, defaultProviderPath := "",
        runProvider := fun _ _ => ProviderOutcome.ok "secret",
        child := ChildOutcome.exited 0 }
      []).providerInvoked = false :=
  (claim7_no_username_fallback _ [] (by decide) rfl).2.1

/-- C9: building the child environment only ever appends a single
`PGPASSWORD` entry after the unchanged snapshot of the existing
environment (so a pre-existing entry is neither removed nor rewritten,
and the process environment itself is a value the function never
mutates). -/
theorem claim9_env_append_only (w : World) (args : List String) :
    (buildEnv w args).env = w.environ ∨
    ∃ p : String, p ≠ "" ∧
      (buildEnv w args).env = w.environ ++ ["PGPASSWORD=" ++ p] := by
  unfold buildEnv
  by_cases hu : (searchForUsername args w.pguser).1 = ""
  · left
    simp [hu]
  · rcases hp : retrievePasswordForUser w (searchForUsername args w.pguser).1
      with ⟨e⟩ | ⟨pw⟩
    · left
      simp [hu, hp]
    · by_cases hpw : pw = ""
      · left
        simp [hu, hp, hpw]
      · right
        exact ⟨pw, hpw, by simp [hu, hp, hpw]⟩

/-- The head of `dropWhile p l` never satisfies `p`. -/
theorem head_dropWhile_ne (p : Char → Bool) :
    ∀ (l : List Char) (c : Char), (l.dropWhile p).head? = some c → p c = false := by
  intro l
  induction l with
  | nil =>
    intro c h
    simp [List.dropWhile] at h
  | cons a t ih =>
    intro c h
    by_cases hp : p a = true
    · rw [List.dropWhile_cons_of_pos hp] at h
      exact ih c h
    · rw [List.dropWhile_cons_of_neg hp] at h
      simp at h
      subst h
      simpa using hp

/-- World for the C4 counterexample: the provider prints a single
space character. -/
def worldSpaceOutput : World :=
  { environ := [], pguser := "", providerOverride := "prov",
    defaultProviderExists := false, defaultProviderPath := "",
    runProvider := fun _ _ => ProviderOutcome.ok " ",
    child := ChildOutcome.exited 0 }

/-- C4 counterexample: a provider output consisting only of whitespace
(one space, no newline) is unchanged by the trimming — only trailing
newlines are stripped — so it does not become the empty string, and it
is injected into the child environment. -/
theorem claim4_counterexample :
    trimRightNewlines " " = " " ∧ (" " : String) ≠ "" ∧
    (buildEnv worldSpaceOutput ["-U", "alice"]).env = ["PGPASSWORD= "] := by
  refine ⟨rfl, by decide, rfl⟩

/-- C4 amended: the launcher strips exactly the trailing newline
characters of the provider output, preserving internal whitespace and
leading content; an output consisting only of newlines becomes the
empty string, and whenever the trimmed password is empty no password
variable is injected into the child environment. -/
theorem claim4_amended :
    (∀ s : String, ∃ k : Nat,
      s.data = (trimRightNewlines s).data ++ List.replicate k '\n' ∧
      (trimRightNewlines s).data.getLast? ≠ some '\n') ∧
    (∀ s : String, (∀ c ∈ s.data, c = '\n') → trimRightNewlines s = "") ∧
    (∀ (w : World) (args : List String) (s : String),
      getPasswordProvider w ≠ "" →
      w.runProvider (getPasswordProvider w)
        (searchForUsername args w.pguser).1 = ProviderOutcome.ok s →
      trimRightNewlines s = "" →
      (buildEnv w args).env = w.environ ∧ (buildEnv w args).err = none) := by
  refine ⟨?_, ?_, ?_⟩
  · intro s
    refine ⟨(s.data.reverse.takeWhile (fun c => c == '\n')).length, ?_, ?_⟩
    · have hsplit := List.takeWhile_append_dropWhile
        (p := fun c => c == '\n') (l := s.data.reverse)
      have hrep : (s.data.reverse.takeWhile (fun c => c == '\n')).reverse =
          List.replicate
            (s.data.reverse.takeWhile (fun c => c == '\n')).length '\n' := by
        have hmem : ∀ b ∈ (s.data.reverse.takeWhile (fun c => c == '\n')).reverse,
            b = '\n' := by
          intro b hb
          rw [List.mem_reverse] at hb
          have := List.mem_takeWhile_imp hb
          simpa using this
        have := List.eq_replicate_of_mem hmem
        simpa using this
      calc s.data = s.data.reverse.reverse := by rw [List.reverse_reverse]
        _ = ((s.data.reverse.takeWhile (fun c => c == '\n')) ++
              (s.data.reverse.dropWhile (fun c => c == '\n'))).reverse := by
              rw [hsplit]
        _ = (trimRightNewlines s).data ++
              List.replicate
                (s.data.reverse.takeWhile (fun c => c == '\n')).length '\n' := by
              rw [List.reverse_append, ← hrep]
              rfl
    · intro hlast
      have : (s.data.reverse.dropWhile (fun c => c == '\n')).head? = some '\n' := by
        have h1 : (trimRightNewlines s).data =
            (s.data.reverse.dropWhile (fun c => c == '\n')).reverse := rfl
        rw [h1, List.getLast?_reverse] at hlast
        exact hlast
      have := head_dropWhile_ne (fun c => c == '\n') _ _ this
      simp at this
  · intro s hall
    have hnil : s.data.reverse.dropWhile (fun c => c == '\n') = [] := by
      rw [List.dropWhile_eq_nil_iff]
      intro x hx
      have : x = '\n' := hall x (List.mem_reverse.mp hx)
      simp [this]
    show String.mk ((s.data.reverse.dropWhile (fun c => c == '\n')).reverse) = ""
    rw [hnil]
    rfl
  · intro w args s hp hr ht
    by_cases hu : (searchForUsername args w.pguser).1 = ""
    · constructor <;> simp [buildEnv, hu]
    · have hretr : retrievePasswordForUser w
          (searchForUsername args w.pguser).1 = Except.ok "" := by
        simp [retrievePasswordForUser, hp, invokePasswordProvider, hr, ht]
      constructor <;> simp [buildEnv, hu, hretr]

/-- World for the C4 witness: the provider prints two bare newlines. -/
def worldNewlineOutput : World :=
  { environ := [], pguser := "", providerOverride := "prov",
    defaultProviderExists := false, defaultProviderPath := "",
    runProvider := fun _ _ => ProviderOutcome.ok "\n\n",
    child := ChildOutcome.exited 0 }

/-- C4 witness: a provider output of two newlines trims to the empty
string and nothing is injected. -/
theorem claim4_witness :
    (buildEnv worldNewlineOutput ["-U", "alice"]).env = [] ∧
    (buildEnv worldNewlineOutput ["-U", "alice"]).err = none :=
  claim4_amended.2.2 worldNewlineOutput ["-U", "alice"] "\n\n"
    (by decide) rfl (by decide)

/-- A string starting with `postgresql:` is neither a short nor a long
option, so the scan collects it as a positional argument. -/
theorem classifyArg_postgresql (uri : String)
    (h : strHasPre uri "postgresql:" = true) :
    classifyArg uri = Tok.positional := by
  unfold strHasPre at h
  obtain ⟨t, ht⟩ := List.isPrefixOf_iff_prefix.mp h
  have hd : uri.data = 'p' :: 'o' :: 's' :: 't' :: 'g' :: 'r' :: 'e' :: 's' ::
      'q' :: 'l' :: ':' :: t := by
    rw [← ht]
    rfl
  simp [classifyArg, isLongOption, isShortOption, strHasPre, hd, List.isPrefixOf]

/-- C8: a single positional argument with the `postgresql:` prefix that
fails URI parsing yields no username, the parse error is logged, and
resolution is not aborted: the environment fallback still applies and,
when it is empty too, the launcher still spawns the target. -/
theorem claim8_uri_parse_error (uri e pguser : String) (w : World)
    (hpre : strHasPre uri "postgresql:" = true)
    (herr : urlParse uri = Except.error e) :
    searchConnectionArgForUsername uri = ("", [e]) ∧
    searchForUsername [uri] pguser = (pguser, [e]) ∧
    (w.pguser = "" →
      (launch w [uri]).spawned = true ∧ e ∈ (launch w [uri]).logs) := by
  have hconn : searchConnectionArgForUsername uri = ("", [e]) := by
    simp [searchConnectionArgForUsername, hpre, searchConnectionURIForUsername,
      herr]
  have hca : classifyArg uri = Tok.positional := classifyArg_postgresql uri hpre
  have hscan : scanArgsLoop [uri] "" [] = ("", [uri]) := by
    rw [scanArgsLoop_cons, hca]
    simp [scanArgsLoop]
  have hsearch : ∀ pg : String, searchForUsername [uri] pg = (pg, [e]) := by
    intro pg
    simp [searchForUsername, searchArgsForUsername, hscan,
      searchPositionalArgsForUsername, hconn]
  refine ⟨hconn, hsearch pguser, ?_⟩
  intro hpg
  have hu : (searchForUsername [uri] w.pguser).1 = "" := by
    rw [hsearch w.pguser, hpg]
  have hlogs : (searchForUsername [uri] w.pguser).2 = [e] := by
    rw [hsearch w.pguser]
  have hb : buildEnv w [uri] =
      { env := w.environ,
        err := none,
        logs := (searchForUsername [uri] w.pguser).2 ++
          ["Cannot detect username to login"],
        providerInvoked := false } := by
    simp [buildEnv, hu]
  rcases hc : w.child with n | m <;>
    simp [launch, hb, runCommand, hc, hlogs, List.mem_append]

/-- World for the C8 witness. -/
def worldBadURI : World :=
  { environ := [], pguser := "", providerOverride := "",
    defaultProviderExists := false, defaultProviderPath := "",
    runProvider := fun _ _ => ProviderOutcome.exitError,
    child := ChildOutcome.exited 0 }

/-- C8 witness: `postgresql://h:x/db` has a non-numeric port, parsing
fails, the error is logged, the token yields no username, the fallback
applies, and the target is still spawned. -/
theorem claim8_witness :
    searchConnectionArgForUsername "postgresql://h:x/db" =
      ("", ["invalid port \":x\" after host"]) ∧
    searchForUsername ["postgresql://h:x/db"] "fallback" =
      ("fallback", ["invalid port \":x\" after host"]) ∧
    (launch worldBadURI ["postgresql://h:x/db"]).spawned = true :=
  ⟨(claim8_uri_parse_error "postgresql://h:x/db"
      "invalid port \":x\" after host" "fallback" worldBadURI rfl rfl).1,
   (claim8_uri_parse_error "postgresql://h:x/db"
      "invalid port \":x\" after host" "fallback" worldBadURI rfl rfl).2.1,
   ((claim8_uri_parse_error "postgresql://h:x/db"
      "invalid port \":x\" after host" "fallback" worldBadURI rfl rfl).2.2
      rfl).1⟩

/-- A parameter token whose key (the part before the first `=`) is
`user`, with an `=` present. -/
def isUserParam (q : String) : Bool :=
  match splitN2 q with
  | (k, some _) => k == "user"
  | (_, none) => false

/-- Evaluating `splitN2` on `user=VALUE` gives the key `user` and the value
`VALUE`, for every `VALUE` (even one containing further `=`). -/
theorem splitN2_user (v : String) : splitN2 ("user=" ++ v) = ("user", some v) := by
  simp [splitN2, String.data_append, cutAtFirst]

/-- Parameters that are not `user` parameters are skipped by the
lookup loop. -/
theorem findUserParamLoop_append (pre : List String)
    (hpre : ∀ q ∈ pre, isUserParam q = false) :
    ∀ l : List String, findUserParamLoop (pre ++ l) = findUserParamLoop l := by
  induction pre with
  | nil => intro l; rfl
  | cons q qs ih =>
    intro l
    have hq : isUserParam q = false := hpre q (List.mem_cons_self q qs)
    rw [List.cons_append]
    rcases h2 : splitN2 q with ⟨k, _ | v2⟩
    · simp [findUserParamLoop, h2]
      exact ih (fun x hx => hpre x (List.mem_cons_of_mem q hx)) l
    · have hk : (k == "user") = false := by
        simpa [isUserParam, h2] using hq
      simp [findUserParamLoop, h2, hk]
      exact ih (fun x hx => hpre x (List.mem_cons_of_mem q hx)) l

/-- C10: over the whitespace-split parameters, taken left to right, the
first `user` parameter wins: if the split of `s` is some non-`user`
parameters, then `user=VALUE`, then anything at all (further `user`
parameters included), the resolver returns that first value. -/
theorem claim10_first_user_param (s v : String) (pre rest : List String)
    (hsplit : splitWS s = pre ++ ("user=" ++ v) :: rest)
    (hpre : ∀ q ∈ pre, isUserParam q = false) :
    searchConnectionStringForUsername s = trimSpace v := by
  unfold searchConnectionStringForUsername
  rw [hsplit, findUserParamLoop_append pre hpre]
  simp [findUserParamLoop, splitN2_user]

/-- C10 witness: with two `user` parameters the first one wins. -/
theorem claim10_witness :
    searchConnectionStringForUsername "user=dave user=bob" = "dave" :=
  (claim10_first_user_param "user=dave user=bob" "dave" [] ["user=bob"]
    (by decide) (by simp)).trans (by decide)

end PsqlWrapper
